import Mathlib

/-!
Shallow embedding of the ledger/allocation core of `gestao.py` (gestao-pdde).

Monetary values are embedded as exact rationals (`ℚ`); the Python source uses
floats, and the specification states its arithmetic properties up to
floating-point tolerance, which in exact arithmetic become equalities.
Python dicts that are iterated (the per-program entry map) are embedded as
association lists with distinct keys; dicts used only for keyed lookup
(`saldos_iniciais`, the Firestore account collection) are embedded as
functions to `Option`.  The ambient `datetime.now().year` is threaded as an
explicit `curYear` argument.
-/

namespace Gestao

/-- One ledger entry, mirroring the movement dicts built by
`calcular_rateio_rendimento` (`gestao.py` lines 359-367).  The `ano` field is
optional: legacy records may lack it (`mov.get('ano', ...)` reads). -/
structure Movement where
  programa : String
  mes_num : Nat
  ano : Option Nat
  credito_capital : ℚ
  credito_custeio : ℚ
  debito_capital : ℚ
  debito_custeio : ℚ
  rendimento_capital : ℚ
  rendimento_custeio : ℚ
  total_credito : ℚ
  total_debito : ℚ
  total_rendimento : ℚ
deriving DecidableEq, Repr

/-- An opening balance entry of `saldos_iniciais`: the dict
`{'Capital': ..., 'Custeio': ...}` (`gestao.py` line 839). -/
structure SaldoInicial where
  Capital : ℚ
  Custeio : ℚ
deriving DecidableEq, Repr

/-- The three values of the `tipo_recurso` argument of `get_saldo_anterior`. -/
inductive TipoRecurso where
  | Capital : TipoRecurso
  | Custeio : TipoRecurso
  | Total : TipoRecurso
deriving DecidableEq, Repr

/-- An account record: the value stored per account name
(`{'programas': [...], 'movimentacoes': [...], 'saldos_iniciais': {...}}`,
`gestao.py` line 287).  `saldos_iniciais` is a keyed dict, embedded as a
function to `Option`. -/
structure Conta where
  programas : List String
  saldos_iniciais : String → Option SaldoInicial
  movimentacoes : List Movement

/-- The component of an opening-balance entry selected by `tipo_recurso`
(`gestao.py` lines 221-222): `Total` is `Capital + Custeio`. -/
def SaldoInicial.sel (si : SaldoInicial) : TipoRecurso → ℚ
  | TipoRecurso.Capital => si.Capital
  | TipoRecurso.Custeio => si.Custeio
  | TipoRecurso.Total => si.Capital + si.Custeio

/-- The per-movement contribution selected by `tipo_recurso`
(`gestao.py` lines 231-236).  For `Total` the code reads the STORED total
fields, not the sum of the capital/custeio components. -/
def Movement.delta (m : Movement) : TipoRecurso → ℚ
  | TipoRecurso.Capital => m.credito_capital + m.rendimento_capital - m.debito_capital
  | TipoRecurso.Custeio => m.credito_custeio + m.rendimento_custeio - m.debito_custeio
  | TipoRecurso.Total => m.total_credito + m.total_rendimento - m.total_debito

/-- `eh_passado` (`gestao.py` lines 226-228): the movement's period is
strictly before the target period, the movement's year defaulting to the
current calendar year when the record has no `ano` field. -/
def ehPassado (curYear : Nat) (m : Movement) (mes_alvo ano_alvo : Nat) : Bool :=
  decide (m.ano.getD curYear < ano_alvo) ||
    (decide (m.ano.getD curYear = ano_alvo) && decide (m.mes_num < mes_alvo))

/-- `get_saldo_anterior` (`gestao.py` lines 214-237): opening balance
component for the program (0 when the program is absent from
`saldos_iniciais`), plus the loop accumulating every strictly-earlier
movement of that program. -/
def get_saldo_anterior (curYear : Nat) (conta : Conta) (programa : String)
    (tipo : TipoRecurso) (mes_alvo ano_alvo : Nat) : ℚ :=
  let init : ℚ :=
    match conta.saldos_iniciais programa with
    | some si => si.sel tipo
    | none => 0
  conta.movimentacoes.foldl
    (fun saldo mov =>
      if decide (mov.programa = programa) && ehPassado curYear mov mes_alvo ano_alvo then
        saldo + mov.delta tipo
      else saldo)
    init

/-- The opening-balance term of `get_saldo_anterior` (`gestao.py` lines
218-223): the program's entry of `saldos_iniciais` selected by
`tipo_recurso`, and 0 when the program has no entry. -/
def openingOf (conta : Conta) (programa : String) (tipo : TipoRecurso) : ℚ :=
  match conta.saldos_iniciais programa with
  | some si => si.sel tipo
  | none => 0

/-- Per-movement contribution as the specification words it: "the value
(credit + interest − debit) of the matching resource component(s)", with
`Total` covering both components — written from the spec, to be compared
with `Movement.delta`, which for `Total` reads the stored total fields. -/
def spec_delta (m : Movement) : TipoRecurso → ℚ
  | TipoRecurso.Capital => m.credito_capital + m.rendimento_capital - m.debito_capital
  | TipoRecurso.Custeio => m.credito_custeio + m.rendimento_custeio - m.debito_custeio
  | TipoRecurso.Total =>
      (m.credito_capital + m.rendimento_capital - m.debito_capital)
        + (m.credito_custeio + m.rendimento_custeio - m.debito_custeio)

/-- One program's raw input of `dados_entrada` (`gestao.py` line 418). -/
structure Entrada where
  cred_cap : ℚ
  cred_cus : ℚ
  deb_cap : ℚ
  deb_cus : ℚ
deriving DecidableEq, Repr

/-- `base_cap` of `calcular_rateio_rendimento` (`gestao.py` line 345):
prior balance plus credit minus debit, clamped at zero. -/
def base_capital (curYear : Nat) (conta : Conta) (mes_num ano : Nat)
    (prog : String) (v : Entrada) : ℚ :=
  max 0 (get_saldo_anterior curYear conta prog TipoRecurso.Capital mes_num ano
    + v.cred_cap - v.deb_cap)

/-- `base_cus` of `calcular_rateio_rendimento` (`gestao.py` line 346). -/
def base_custeio (curYear : Nat) (conta : Conta) (mes_num ano : Nat)
    (prog : String) (v : Entrada) : ℚ :=
  max 0 (get_saldo_anterior curYear conta prog TipoRecurso.Custeio mes_num ano
    + v.cred_cus - v.deb_cus)

/-- `total_saldo_conta` (`gestao.py` lines 341-348): the sum of both clamped
base balances over all entered programs. -/
def total_saldo_conta (curYear : Nat) (conta : Conta) (mes_num ano : Nat)
    (dados_entrada : List (String × Entrada)) : ℚ :=
  (dados_entrada.map fun pv =>
    base_capital curYear conta mes_num ano pv.1 pv.2
      + base_custeio curYear conta mes_num ano pv.1 pv.2).sum

/-- `calcular_rateio_rendimento` (`gestao.py` lines 339-368).  The Python
first fills the dict `saldos_base` in one loop and reads it back in a second
loop over the same dict; since the dict's keys are distinct, this equals
recomputing each program's base in place, which is how it is written here. -/
def calcular_rateio_rendimento (curYear : Nat) (conta : Conta) (mes_num ano : Nat)
    (rendimento_total_banco : ℚ) (dados_entrada : List (String × Entrada)) :
    List Movement :=
  let total := total_saldo_conta curYear conta mes_num ano dados_entrada
  dados_entrada.map fun pv =>
    let fator_cap : ℚ :=
      if total > 0 then base_capital curYear conta mes_num ano pv.1 pv.2 / total else 0
    let fator_cus : ℚ :=
      if total > 0 then base_custeio curYear conta mes_num ano pv.1 pv.2 / total else 0
    let rend_cap := rendimento_total_banco * fator_cap
    let rend_cus := rendimento_total_banco * fator_cus
    { programa := pv.1, mes_num := mes_num, ano := some ano,
      credito_capital := pv.2.cred_cap, credito_custeio := pv.2.cred_cus,
      debito_capital := pv.2.deb_cap, debito_custeio := pv.2.deb_cus,
      rendimento_capital := rend_cap, rendimento_custeio := rend_cus,
      total_credito := pv.2.cred_cap + pv.2.cred_cus,
      total_debito := pv.2.deb_cap + pv.2.deb_cus,
      total_rendimento := rend_cap + rend_cus }

/-- Whether a movement belongs to the period being saved: the removal
predicate of the save handler (`gestao.py` line 423),
`m['mes_num'] == mes_selecionado and m.get('ano', now.year) == ano_atual`. -/
def periodKey (curYear : Nat) (m : Movement) (mes ano : Nat) : Bool :=
  decide (m.mes_num = mes) && decide (m.ano.getD curYear = ano)

/-- The save handler's full-period replace (`gestao.py` lines 420-425):
compute the new movement set, drop every movement of the account with the
saved period's key, and append the new set. -/
def replacePeriod (curYear : Nat) (conta : Conta) (mes ano : Nat)
    (rendimento_total : ℚ) (dados_entrada : List (String × Entrada)) : Conta :=
  let novos := calcular_rateio_rendimento curYear conta mes ano rendimento_total dados_entrada
  { conta with
    movimentacoes :=
      conta.movimentacoes.filter (fun m => !periodKey curYear m mes ano) ++ novos }

/-- Monthly statement rows (`gestao.py` lines 445-455): walk the movements,
carrying the running capital and custeio balances; each row records the
movement together with the balances holding immediately after it. -/
def extrato_rows (sc su : ℚ) : List Movement → List (Movement × ℚ × ℚ)
  | [] => []
  | m :: t =>
    let sc' := sc + (m.credito_capital + m.rendimento_capital - m.debito_capital)
    let su' := su + (m.credito_custeio + m.rendimento_custeio - m.debito_custeio)
    (m, sc', su') :: extrato_rows sc' su' t

/-- The report aggregator for one program and year (`gestao.py` lines
439-447): seed the running balances with `get_saldo_anterior` at month 1,
then walk that program's movements of the year sorted by month. -/
def extrato (curYear : Nat) (conta : Conta) (p : String) (ano_atual : Nat) :
    List (Movement × ℚ × ℚ) :=
  let movs_prog_ano :=
    (conta.movimentacoes.filter fun m =>
      decide (m.programa = p) && decide (m.ano.getD curYear = ano_atual)).mergeSort
      (fun x y => x.mes_num ≤ y.mes_num)
  extrato_rows
    (get_saldo_anterior curYear conta p TipoRecurso.Capital 1 ano_atual)
    (get_saldo_anterior curYear conta p TipoRecurso.Custeio 1 ano_atual)
    movs_prog_ano

/-- The account store (the `pdde_contas` Firestore collection), embedded as
a keyed map from account name to account record. -/
structure Store where
  docs : String → Option Conta

/-- `document(name).get()` existence/content read. -/
def Store.get (s : Store) (name : String) : Option Conta :=
  s.docs name

/-- `document(name).set(data)`. -/
def Store.set (s : Store) (name : String) (data : Conta) : Store :=
  ⟨fun q => if q = name then some data else s.docs q⟩

/-- `document(name).delete()`. -/
def Store.delete (s : Store) (name : String) : Store :=
  ⟨fun q => if q = name then none else s.docs q⟩

/-- `rename_account_in_firebase` (`gestao.py` lines 133-157): refuse when the
new name already exists, refuse when the old name is absent, otherwise copy
first (`set` under the new name) and delete the old document second.
Returns the resulting store and the function's boolean result. -/
def rename_account_in_firebase (s : Store) (old_name new_name : String) :
    Store × Bool :=
  if (s.get new_name).isSome then (s, false)
  else
    match s.get old_name with
    | none => (s, false)
    | some data => ((s.set new_name data).delete old_name, true)

/-- Program deletion (`gestao.py` lines 850-856): remove the program from the
account's program list and drop its opening-balance entry; the movement list
is not touched. -/
def delete_program (conta : Conta) (p : String) : Conta :=
  { conta with
    programas := conta.programas.erase p,
    saldos_iniciais := fun q => if q = p then none else conta.saldos_iniciais q }

/-- Program addition (`gestao.py` lines 835-839): when the program is not yet
listed, append it and create a zeroed opening-balance entry. -/
def add_program (conta : Conta) (p : String) : Conta :=
  if p ∈ conta.programas then conta
  else
    { conta with
      programas := conta.programas ++ [p],
      saldos_iniciais := fun q =>
        if q = p then some { Capital := 0, Custeio := 0 } else conta.saldos_iniciais q }

/-- The data-model invariant on stored totals: each movement's total fields
are the sums of its capital/custeio components (spec §3; the engine always
emits movements satisfying it). -/
def totalsConsistent (m : Movement) : Prop :=
  m.total_credito = m.credito_capital + m.credito_custeio
    ∧ m.total_debito = m.debito_capital + m.debito_custeio
    ∧ m.total_rendimento = m.rendimento_capital + m.rendimento_custeio

instance (m : Movement) : Decidable (totalsConsistent m) :=
  inferInstanceAs (Decidable
    (m.total_credito = m.credito_capital + m.credito_custeio
      ∧ m.total_debito = m.debito_capital + m.debito_custeio
      ∧ m.total_rendimento = m.rendimento_capital + m.rendimento_custeio))

/-- Sample January movement (the spec §8 example): credit 50 capital,
interest 10, for program `P1` of 2024. -/
def mov1 : Movement :=
  { programa := "P1", mes_num := 1, ano := some 2024,
    credito_capital := 50, credito_custeio := 0,
    debito_capital := 0, debito_custeio := 0,
    rendimento_capital := 10, rendimento_custeio := 0,
    total_credito := 50, total_debito := 0, total_rendimento := 10 }

/-- Sample February movement for program `P1` of 2024. -/
def mov2 : Movement :=
  { programa := "P1", mes_num := 2, ano := some 2024,
    credito_capital := 0, credito_custeio := 20,
    debito_capital := 5, debito_custeio := 0,
    rendimento_capital := 0, rendimento_custeio := 0,
    total_credito := 20, total_debito := 5, total_rendimento := 0 }

/-- Sample account: program `P1`, opening balance 100 capital / 0 custeio,
with the two sample movements. -/
def contaExemplo : Conta :=
  { programas := ["P1"],
    saldos_iniciais := fun q => if q = "P1" then some { Capital := 100, Custeio := 0 } else none,
    movimentacoes := [mov1, mov2] }

/-- Sample empty account (no programs, no opening balances, no movements). -/
def contaVazia : Conta :=
  { programas := [], saldos_iniciais := fun _ => none, movimentacoes := [] }

/-- Sample per-program input: program `P1` credits 50 capital. -/
def dadosExemplo : List (String × Entrada) :=
  [("P1", { cred_cap := 50, cred_cus := 0, deb_cap := 0, deb_cus := 0 })]

/-- Sample all-zero per-program input for one program. -/
def dadosZero : List (String × Entrada) :=
  [("P1", { cred_cap := 0, cred_cus := 0, deb_cap := 0, deb_cus := 0 })]

/-- Sample per-program input containing a negative capital credit. -/
def dadosNegativo : List (String × Entrada) :=
  [("P1", { cred_cap := -5, cred_cus := 0, deb_cap := 0, deb_cus := 0 })]

/-- Sample store holding two accounts, named `A` and `B`. -/
def storeExemplo : Store :=
  ⟨fun q => if q = "A" then some contaExemplo
    else if q = "B" then some contaVazia else none⟩

/-- Sample store holding only account `A`. -/
def storeSoA : Store :=
  ⟨fun q => if q = "A" then some contaExemplo else none⟩

/-! ## Helper lemmas -/

theorem foldl_cond_add {α : Type} (c : α → Bool) (f : α → ℚ) :
    ∀ (l : List α) (init : ℚ),
      l.foldl (fun s m => if c m then s + f m else s) init
        = init + (l.map fun m => if c m then f m else 0).sum
  | [], _ => by simp
  | m :: t, init => by
    by_cases h : c m <;>
      simp [List.foldl_cons, h, foldl_cond_add c f t, add_assoc]

/-- `get_saldo_anterior` as an opening balance plus a sum over the movement
list. -/
theorem get_saldo_eq_sum (curYear : Nat) (conta : Conta) (programa : String)
    (tipo : TipoRecurso) (mes_alvo ano_alvo : Nat) :
    get_saldo_anterior curYear conta programa tipo mes_alvo ano_alvo
      = openingOf conta programa tipo
        + (conta.movimentacoes.map fun m =>
            if decide (m.programa = programa) && ehPassado curYear m mes_alvo ano_alvo
            then m.delta tipo else 0).sum := by
  unfold get_saldo_anterior openingOf
  exact foldl_cond_add _ _ _ _

theorem sum_map_filter_eq_sum_ite {α : Type} (c : α → Bool) (f : α → ℚ) :
    ∀ l : List α,
      ((l.filter c).map f).sum = (l.map fun m => if c m then f m else 0).sum
  | [] => by simp
  | m :: t => by
    by_cases h : c m <;>
      simp [List.filter_cons, h, sum_map_filter_eq_sum_ite c f t]

theorem sum_map_add_split {α : Type} (f g : α → ℚ) (l : List α) :
    (l.map fun m => f m + g m).sum = (l.map f).sum + (l.map g).sum := by
  induction l with
  | nil => simp
  | cons m t ih => simp only [List.map_cons, List.sum_cons, ih]; ring

/-! ## Claims -/

/-- Claim C1: allocation conservation.  For every account state, period,
bank-reported interest total `R` and per-program input map, if the total of
the clamped base balances is strictly positive then the sum over the emitted
movements of `rendimento_capital + rendimento_custeio` equals `R` exactly
(exact rational arithmetic), for positive and negative `R` alike. -/
theorem allocation_conservation (curYear : Nat) (conta : Conta) (mes ano : Nat)
    (R : ℚ) (dados : List (String × Entrada))
    (h : 0 < total_saldo_conta curYear conta mes ano dados) :
    ((calcular_rateio_rendimento curYear conta mes ano R dados).map
      (fun m => m.rendimento_capital + m.rendimento_custeio)).sum = R := by
  have hT : total_saldo_conta curYear conta mes ano dados ≠ 0 := ne_of_gt h
  unfold calcular_rateio_rendimento
  rw [List.map_map]
  have hcong :
      dados.map ((fun m : Movement => m.rendimento_capital + m.rendimento_custeio) ∘
        (fun pv : String × Entrada =>
          let fator_cap : ℚ :=
            if total_saldo_conta curYear conta mes ano dados > 0 then
              base_capital curYear conta mes ano pv.1 pv.2 /
                total_saldo_conta curYear conta mes ano dados
            else 0
          let fator_cus : ℚ :=
            if total_saldo_conta curYear conta mes ano dados > 0 then
              base_custeio curYear conta mes ano pv.1 pv.2 /
                total_saldo_conta curYear conta mes ano dados
            else 0
          let rend_cap := R * fator_cap
          let rend_cus := R * fator_cus
          { programa := pv.1, mes_num := mes, ano := some ano,
            credito_capital := pv.2.cred_cap, credito_custeio := pv.2.cred_cus,
            debito_capital := pv.2.deb_cap, debito_custeio := pv.2.deb_cus,
            rendimento_capital := rend_cap, rendimento_custeio := rend_cus,
            total_credito := pv.2.cred_cap + pv.2.cred_cus,
            total_debito := pv.2.deb_cap + pv.2.deb_cus,
            total_rendimento := rend_cap + rend_cus }))
      = dados.map (fun pv =>
          (base_capital curYear conta mes ano pv.1 pv.2
            + base_custeio curYear conta mes ano pv.1 pv.2)
            * (R / total_saldo_conta curYear conta mes ano dados)) := by
    apply List.map_congr_left
    intro pv _
    simp only [Function.comp_apply, if_pos h]
    field_simp
    ring
  rw [hcong, List.sum_map_mul_right]
  show total_saldo_conta curYear conta mes ano dados *
    (R / total_saldo_conta curYear conta mes ano dados) = R
  field_simp

theorem allocation_conservation_witness :
    0 < total_saldo_conta 2024 contaExemplo 3 2024 dadosExemplo
      ∧ ((calcular_rateio_rendimento 2024 contaExemplo 3 2024 7 dadosExemplo).map
          (fun m => m.rendimento_capital + m.rendimento_custeio)).sum = 7 :=
  have h : 0 < total_saldo_conta 2024 contaExemplo 3 2024 dadosExemplo := by
    norm_num [total_saldo_conta, dadosExemplo, base_capital, base_custeio,
      get_saldo_anterior, contaExemplo, mov1, mov2, ehPassado,
      Movement.delta, SaldoInicial.sel]
  ⟨h, allocation_conservation 2024 contaExemplo 3 2024 7 dadosExemplo h⟩

/-- Claim C4: zero-base degeneracy.  If every program's clamped base balance
is zero then every emitted movement carries zero interest in both components
and a zero interest total, regardless of the bank-reported figure, and the
engine computes this case without error (it is a total function). -/
theorem allocation_degenerate (curYear : Nat) (conta : Conta) (mes ano : Nat)
    (R : ℚ) (dados : List (String × Entrada))
    (h : ∀ pv ∈ dados, base_capital curYear conta mes ano pv.1 pv.2 = 0
        ∧ base_custeio curYear conta mes ano pv.1 pv.2 = 0) :
    ∀ m ∈ calcular_rateio_rendimento curYear conta mes ano R dados,
      m.rendimento_capital = 0 ∧ m.rendimento_custeio = 0 ∧ m.total_rendimento = 0 := by
  have hT : total_saldo_conta curYear conta mes ano dados = 0 := by
    unfold total_saldo_conta
    apply List.sum_eq_zero
    intro x hx
    obtain ⟨pv, hpv, rfl⟩ := List.mem_map.mp hx
    obtain ⟨h1, h2⟩ := h pv hpv
    rw [h1, h2, add_zero]
  intro m hm
  unfold calcular_rateio_rendimento at hm
  rw [List.mem_map] at hm
  obtain ⟨pv, _, rfl⟩ := hm
  simp [hT]

theorem allocation_degenerate_witness :
    (∀ pv ∈ dadosZero, base_capital 2024 contaVazia 1 2024 pv.1 pv.2 = 0
        ∧ base_custeio 2024 contaVazia 1 2024 pv.1 pv.2 = 0)
      ∧ ∀ m ∈ calcular_rateio_rendimento 2024 contaVazia 1 2024 99 dadosZero,
          m.rendimento_capital = 0 ∧ m.rendimento_custeio = 0 ∧ m.total_rendimento = 0 :=
  have h : ∀ pv ∈ dadosZero, base_capital 2024 contaVazia 1 2024 pv.1 pv.2 = 0
      ∧ base_custeio 2024 contaVazia 1 2024 pv.1 pv.2 = 0 := by
    norm_num [dadosZero, base_capital, base_custeio, get_saldo_anterior, contaVazia]
  ⟨h, allocation_degenerate 2024 contaVazia 1 2024 99 dadosZero h⟩

/-- Claim C9, counterexample: the allocation engine does not reject negative
inputs.  On a concrete input whose capital credit is −5 it still computes a
movement record (with the negative credit stored verbatim) instead of
failing before any movement is computed. -/
theorem rateio_negative_not_rejected :
    ((calcular_rateio_rendimento 2024 contaVazia 1 2024 10 dadosNegativo).map
      (fun m => m.credito_capital)) = [-5] := by decide

/-- Claim C9 (amended): the allocation engine performs no input validation:
for every per-program input, negative values included, it emits one movement
per program copying the credit and debit inputs verbatim, and never signals
failure; negative inputs are excluded only by the caller's input widgets. -/
theorem rateio_copies_inputs_verbatim (curYear : Nat) (conta : Conta)
    (mes ano : Nat) (R : ℚ) (dados : List (String × Entrada)) :
    (calcular_rateio_rendimento curYear conta mes ano R dados).map
      (fun m => (m.programa, m.credito_capital, m.credito_custeio,
        m.debito_capital, m.debito_custeio))
    = dados.map (fun pv =>
        (pv.1, pv.2.cred_cap, pv.2.cred_cus, pv.2.deb_cap, pv.2.deb_cus)) := by
  unfold calcular_rateio_rendimento
  rw [List.map_map]
  rfl

/-- Claim C2: balance resolver correctness.  `get_saldo_anterior` returns the
program's opening-balance component(s) for the resource kind (a program
missing from the map contributes 0) plus, for every movement of the program
strictly before the target period, the credit + interest − debit of the
matching component(s); with no strictly-earlier movements it equals exactly
the opening-balance component(s).  The stored-totals invariant of the data
model is assumed, since for `Total` the code reads the stored total fields. -/
theorem resolve_balance_correct (curYear : Nat) (conta : Conta) (p : String)
    (tipo : TipoRecurso) (mes a : Nat)
    (hinv : ∀ m ∈ conta.movimentacoes, totalsConsistent m) :
    get_saldo_anterior curYear conta p tipo mes a
      = openingOf conta p tipo
        + ((conta.movimentacoes.filter fun m =>
            decide (m.programa = p) && ehPassado curYear m mes a).map
            (fun m => spec_delta m tipo)).sum
    ∧ ((∀ m ∈ conta.movimentacoes,
          ¬(m.programa = p ∧ ehPassado curYear m mes a = true)) →
        get_saldo_anterior curYear conta p tipo mes a = openingOf conta p tipo) := by
  constructor
  · rw [get_saldo_eq_sum, sum_map_filter_eq_sum_ite]
    congr 1
    apply congrArg List.sum
    apply List.map_congr_left
    intro m hm
    by_cases hc : decide (m.programa = p) && ehPassado curYear m mes a
    · rw [if_pos hc, if_pos hc]
      obtain ⟨h1, h2, h3⟩ := hinv m hm
      cases tipo
      · rfl
      · rfl
      · show Movement.delta m TipoRecurso.Total = spec_delta m TipoRecurso.Total
        unfold Movement.delta spec_delta
        rw [h1, h2, h3]
        ring
    · rw [if_neg hc, if_neg hc]
  · intro h0
    rw [get_saldo_eq_sum]
    have : (conta.movimentacoes.map fun m =>
        if decide (m.programa = p) && ehPassado curYear m mes a
        then m.delta tipo else 0).sum = 0 := by
      apply List.sum_eq_zero
      intro x hx
      obtain ⟨m, hm, rfl⟩ := List.mem_map.mp hx
      have hc : ¬((decide (m.programa = p) && ehPassado curYear m mes a) = true) := by
        intro hc
        rw [Bool.and_eq_true, decide_eq_true_eq] at hc
        exact h0 m hm ⟨hc.1, hc.2⟩
      rw [if_neg hc]
    rw [this, add_zero]

theorem resolve_balance_correct_witness :
    (∀ m ∈ contaExemplo.movimentacoes, totalsConsistent m)
      ∧ get_saldo_anterior 2024 contaExemplo "P1" TipoRecurso.Capital 1 2024
          = openingOf contaExemplo "P1" TipoRecurso.Capital :=
  have hinv : ∀ m ∈ contaExemplo.movimentacoes, totalsConsistent m := by
    intro m hm
    simp only [contaExemplo, List.mem_cons, List.not_mem_nil, or_false] at hm
    rcases hm with rfl | rfl <;> norm_num [totalsConsistent, mov1, mov2]
  ⟨hinv, (resolve_balance_correct 2024 contaExemplo "P1" TipoRecurso.Capital
    1 2024 hinv).2 (by decide)⟩

/-- Every movement emitted by the allocation engine carries the saved
period's key. -/
theorem novos_periodKey (curYear : Nat) (conta : Conta) (mes ano : Nat)
    (rend : ℚ) (dados : List (String × Entrada)) :
    ∀ m ∈ calcular_rateio_rendimento curYear conta mes ano rend dados,
      periodKey curYear m mes ano = true := by
  intro m hm
  unfold calcular_rateio_rendimento at hm
  rw [List.mem_map] at hm
  obtain ⟨pv, _, rfl⟩ := hm
  simp [periodKey]

/-- A movement carrying the saved period's key is not strictly before that
same period. -/
theorem periodKey_not_passado (curYear : Nat) (m : Movement) (mes ano : Nat)
    (hk : periodKey curYear m mes ano = true) :
    ehPassado curYear m mes ano = false := by
  unfold periodKey at hk
  rw [Bool.and_eq_true, decide_eq_true_eq, decide_eq_true_eq] at hk
  unfold ehPassado
  rw [hk.1, hk.2]
  simp

/-- Claim C6: frame property of the full-period replace.  The replace leaves
the program list and the opening-balance map untouched, and the movements
whose key differs from the saved period are exactly those of the original
list, unchanged and in their original order. -/
theorem replace_frame (curYear : Nat) (conta : Conta) (mes ano : Nat)
    (rend : ℚ) (dados : List (String × Entrada)) :
    (replacePeriod curYear conta mes ano rend dados).programas = conta.programas
    ∧ (replacePeriod curYear conta mes ano rend dados).saldos_iniciais
        = conta.saldos_iniciais
    ∧ (replacePeriod curYear conta mes ano rend dados).movimentacoes.filter
        (fun m => !periodKey curYear m mes ano)
      = conta.movimentacoes.filter (fun m => !periodKey curYear m mes ano) := by
  refine ⟨rfl, rfl, ?_⟩
  show ((conta.movimentacoes.filter (fun m => !periodKey curYear m mes ano)
      ++ calcular_rateio_rendimento curYear conta mes ano rend dados).filter
      (fun m => !periodKey curYear m mes ano)) = _
  rw [List.filter_append, List.filter_filter]
  have h1 : (calcular_rateio_rendimento curYear conta mes ano rend dados).filter
      (fun m => !periodKey curYear m mes ano) = [] := by
    rw [List.filter_eq_nil_iff]
    intro m hm
    rw [novos_periodKey curYear conta mes ano rend dados m hm]
    simp
  rw [h1, List.append_nil]
  apply List.filter_congr
  intro m _
  rw [Bool.and_self]

/-- Claim C7: rename-to-existing atomicity.  When both names exist the rename
returns failure with the store unchanged (no record changed, created or
deleted); when the new name is absent and the old exists, the rename is the
copy under the new name sequenced first, the delete of the old second, with
a success result. -/
theorem rename_atomic (s : Store) (old_name new_name : String) :
    ((s.get old_name).isSome → (s.get new_name).isSome →
      rename_account_in_firebase s old_name new_name = (s, false))
    ∧ (∀ d, s.get new_name = none → s.get old_name = some d →
        rename_account_in_firebase s old_name new_name
          = ((s.set new_name d).delete old_name, true)) := by
  constructor
  · intro _ hnew
    unfold rename_account_in_firebase
    rw [if_pos hnew]
  · intro d hnew hold
    unfold rename_account_in_firebase
    rw [hnew, hold]
    rfl

theorem rename_atomic_witness :
    (storeExemplo.get "A").isSome = true ∧ (storeExemplo.get "B").isSome = true
      ∧ rename_account_in_firebase storeExemplo "A" "B" = (storeExemplo, false) :=
  ⟨rfl, rfl, (rename_atomic storeExemplo "A" "B").1 rfl rfl⟩

/-- Balances strictly before the saved period are unchanged by the
full-period replace of that period: the removed and the appended movements
all carry the saved period's key, hence none of them is strictly earlier. -/
theorem get_saldo_replacePeriod (curYear : Nat) (conta : Conta) (mes ano : Nat)
    (rend : ℚ) (dados : List (String × Entrada)) (p : String)
    (tipo : TipoRecurso) :
    get_saldo_anterior curYear (replacePeriod curYear conta mes ano rend dados)
      p tipo mes ano
      = get_saldo_anterior curYear conta p tipo mes ano := by
  rw [get_saldo_eq_sum, get_saldo_eq_sum]
  congr 1
  show ((conta.movimentacoes.filter (fun m => !periodKey curYear m mes ano)
      ++ calcular_rateio_rendimento curYear conta mes ano rend dados).map
      (fun m => if decide (m.programa = p) && ehPassado curYear m mes ano
        then m.delta tipo else 0)).sum = _
  rw [List.map_append, List.sum_append]
  have hnovos : ((calcular_rateio_rendimento curYear conta mes ano rend dados).map
      (fun m => if decide (m.programa = p) && ehPassado curYear m mes ano
        then m.delta tipo else 0)).sum = 0 := by
    apply List.sum_eq_zero
    intro x hx
    obtain ⟨m, hm, rfl⟩ := List.mem_map.mp hx
    rw [periodKey_not_passado curYear m mes ano
      (novos_periodKey curYear conta mes ano rend dados m hm)]
    simp
  rw [hnovos, add_zero, sum_map_filter_eq_sum_ite]
  apply congrArg List.sum
  apply List.map_congr_left
  intro m _
  by_cases hk : periodKey curYear m mes ano
  · rw [periodKey_not_passado curYear m mes ano hk]
    simp [hk]
  · simp [hk]

/-- The allocation engine produces the same movements on two account states
whose resolver balances agree at the saved period for every entered
program. -/
theorem calcular_rateio_congr (curYear : Nat) (c1 c2 : Conta) (mes ano : Nat)
    (rend : ℚ) (dados : List (String × Entrada))
    (h : ∀ pv ∈ dados,
      get_saldo_anterior curYear c1 pv.1 TipoRecurso.Capital mes ano
        = get_saldo_anterior curYear c2 pv.1 TipoRecurso.Capital mes ano
      ∧ get_saldo_anterior curYear c1 pv.1 TipoRecurso.Custeio mes ano
        = get_saldo_anterior curYear c2 pv.1 TipoRecurso.Custeio mes ano) :
    calcular_rateio_rendimento curYear c1 mes ano rend dados
      = calcular_rateio_rendimento curYear c2 mes ano rend dados := by
  have hbc : ∀ pv ∈ dados, base_capital curYear c1 mes ano pv.1 pv.2
      = base_capital curYear c2 mes ano pv.1 pv.2 := by
    intro pv hpv
    unfold base_capital
    rw [(h pv hpv).1]
  have hbu : ∀ pv ∈ dados, base_custeio curYear c1 mes ano pv.1 pv.2
      = base_custeio curYear c2 mes ano pv.1 pv.2 := by
    intro pv hpv
    unfold base_custeio
    rw [(h pv hpv).2]
  have htot : total_saldo_conta curYear c1 mes ano dados
      = total_saldo_conta curYear c2 mes ano dados := by
    unfold total_saldo_conta
    apply congrArg List.sum
    apply List.map_congr_left
    intro pv hpv
    rw [hbc pv hpv, hbu pv hpv]
  unfold calcular_rateio_rendimento
  apply List.map_congr_left
  intro pv hpv
  rw [htot, hbc pv hpv, hbu pv hpv]

/-- Counting the engine's movements for one program counts that program's
entries of the input list. -/
theorem novos_filter_programa (curYear : Nat) (conta : Conta) (mes ano : Nat)
    (rend : ℚ) (p : String) :
    ∀ dados : List (String × Entrada),
      ((calcular_rateio_rendimento curYear conta mes ano rend dados).filter
        (fun m => decide (m.programa = p))).length
      = (dados.filter (fun pv => decide (pv.1 = p))).length := by
  intro dados
  unfold calcular_rateio_rendimento
  rw [← List.countP_eq_length_filter, ← List.countP_eq_length_filter,
    List.countP_map]
  rfl

/-- In a list with pairwise-distinct keys, a present key is held by exactly
one entry and an absent key by none. -/
theorem filter_fst_length (p : String) :
    ∀ dados : List (String × Entrada), (dados.map Prod.fst).Nodup →
      ((p ∈ dados.map Prod.fst →
          (dados.filter (fun pv => decide (pv.1 = p))).length = 1)
        ∧ (p ∉ dados.map Prod.fst →
          (dados.filter (fun pv => decide (pv.1 = p))).length = 0))
  | [], _ => by simp
  | pv :: t, hnd => by
    rw [List.map_cons, List.nodup_cons] at hnd
    have iht := filter_fst_length p t hnd.2
    by_cases hp : pv.1 = p
    · have hnot : p ∉ t.map Prod.fst := hp ▸ hnd.1
      constructor
      · intro _
        simp [List.filter_cons, hp, iht.2 hnot]
      · intro hmem
        exact absurd (by rw [List.map_cons, ← hp]; exact List.mem_cons_self _ _) hmem
    · constructor
      · intro hmem
        rw [List.map_cons, List.mem_cons] at hmem
        rcases hmem with h | h
        · exact absurd h.symm hp
        · simp [List.filter_cons, hp, iht.1 h]
      · intro hmem
        rw [List.map_cons, List.mem_cons] at hmem
        push_neg at hmem
        simp [List.filter_cons, hp, iht.2 hmem.2]

/-- Claim C3: idempotent full-period replace.  Replacing a period twice with
the same input yields the same account as replacing it once; after the
replace there is exactly one movement of the saved period per entered
program, and no movement of the saved period for any program absent from the
input. -/
theorem replace_idempotent (curYear : Nat) (conta : Conta) (mes ano : Nat)
    (rend : ℚ) (dados : List (String × Entrada))
    (hnd : (dados.map Prod.fst).Nodup) :
    replacePeriod curYear (replacePeriod curYear conta mes ano rend dados)
        mes ano rend dados
      = replacePeriod curYear conta mes ano rend dados
    ∧ (∀ p ∈ dados.map Prod.fst,
        ((replacePeriod curYear conta mes ano rend dados).movimentacoes.filter
          (fun m => decide (m.programa = p) && periodKey curYear m mes ano)).length
        = 1)
    ∧ (∀ p, p ∉ dados.map Prod.fst →
        ((replacePeriod curYear conta mes ano rend dados).movimentacoes.filter
          (fun m => decide (m.programa = p) && periodKey curYear m mes ano)).length
        = 0) := by
  have hsame : calcular_rateio_rendimento curYear
      (replacePeriod curYear conta mes ano rend dados) mes ano rend dados
      = calcular_rateio_rendimento curYear conta mes ano rend dados := by
    apply calcular_rateio_congr
    intro pv _
    exact ⟨get_saldo_replacePeriod curYear conta mes ano rend dados pv.1 _,
      get_saldo_replacePeriod curYear conta mes ano rend dados pv.1 _⟩
  have hkeyfilter : ∀ p : String,
      ((replacePeriod curYear conta mes ano rend dados).movimentacoes.filter
        (fun m => decide (m.programa = p) && periodKey curYear m mes ano)).length
      = (dados.filter (fun pv => decide (pv.1 = p))).length := by
    intro p
    show ((conta.movimentacoes.filter (fun m => !periodKey curYear m mes ano)
        ++ calcular_rateio_rendimento curYear conta mes ano rend dados).filter
        (fun m => decide (m.programa = p) && periodKey curYear m mes ano)).length = _
    rw [List.filter_append, List.filter_filter]
    have h1 : conta.movimentacoes.filter
        (fun m => (decide (m.programa = p) && periodKey curYear m mes ano)
          && !periodKey curYear m mes ano) = [] := by
      rw [List.filter_eq_nil_iff]
      intro m _
      by_cases hk : periodKey curYear m mes ano <;> simp [hk]
    rw [h1, List.nil_append]
    have h2 : (calcular_rateio_rendimento curYear conta mes ano rend dados).filter
        (fun m => decide (m.programa = p) && periodKey curYear m mes ano)
        = (calcular_rateio_rendimento curYear conta mes ano rend dados).filter
          (fun m => decide (m.programa = p)) := by
      apply List.filter_congr
      intro m hm
      rw [novos_periodKey curYear conta mes ano rend dados m hm, Bool.and_true]
    rw [h2, novos_filter_programa]
  refine ⟨?_, ?_, ?_⟩
  · have hmovs : ((conta.movimentacoes.filter (fun m => !periodKey curYear m mes ano)
        ++ calcular_rateio_rendimento curYear conta mes ano rend dados).filter
        (fun m => !periodKey curYear m mes ano))
        = conta.movimentacoes.filter (fun m => !periodKey curYear m mes ano) := by
      rw [List.filter_append, List.filter_filter]
      have h1 : (calcular_rateio_rendimento curYear conta mes ano rend dados).filter
          (fun m => !periodKey curYear m mes ano) = [] := by
        rw [List.filter_eq_nil_iff]
        intro m hm
        rw [novos_periodKey curYear conta mes ano rend dados m hm]
        simp
      rw [h1, List.append_nil]
      apply List.filter_congr
      intro m _
      rw [Bool.and_self]
    show Conta.mk conta.programas conta.saldos_iniciais
        (((conta.movimentacoes.filter (fun m => !periodKey curYear m mes ano)
          ++ calcular_rateio_rendimento curYear conta mes ano rend dados).filter
          (fun m => !periodKey curYear m mes ano))
        ++ calcular_rateio_rendimento curYear
            (replacePeriod curYear conta mes ano rend dados) mes ano rend dados)
      = Conta.mk conta.programas conta.saldos_iniciais
        (conta.movimentacoes.filter (fun m => !periodKey curYear m mes ano)
          ++ calcular_rateio_rendimento curYear conta mes ano rend dados)
    rw [hsame, hmovs]
  · intro p hp
    rw [hkeyfilter p]
    exact (filter_fst_length p dados hnd).1 hp
  · intro p hp
    rw [hkeyfilter p]
    exact (filter_fst_length p dados hnd).2 hp

theorem replace_idempotent_witness :
    (dadosExemplo.map Prod.fst).Nodup
      ∧ (replacePeriod 2024 (replacePeriod 2024 contaExemplo 3 2024 7 dadosExemplo)
            3 2024 7 dadosExemplo
          = replacePeriod 2024 contaExemplo 3 2024 7 dadosExemplo
        ∧ (∀ p ∈ dadosExemplo.map Prod.fst,
            ((replacePeriod 2024 contaExemplo 3 2024 7 dadosExemplo).movimentacoes.filter
              (fun m => decide (m.programa = p) && periodKey 2024 m 3 2024)).length = 1)
        ∧ (∀ p, p ∉ dadosExemplo.map Prod.fst →
            ((replacePeriod 2024 contaExemplo 3 2024 7 dadosExemplo).movimentacoes.filter
              (fun m => decide (m.programa = p) && periodKey 2024 m 3 2024)).length = 0)) :=
  ⟨by decide, replace_idempotent 2024 contaExemplo 3 2024 7 dadosExemplo (by decide)⟩

/-- Claim C8: legacy year default.  A movement lacking the `ano` field is
treated by the balance resolver exactly as the same movement stamped with
the current calendar year; and when every movement carries a stored year,
the resolver's result does not depend on the current calendar year at all
(stored values are used). -/
theorem legacy_year_default (curYear : Nat) (progs : List String)
    (si : String → Option SaldoInicial) (pre post : List Movement)
    (mov : Movement) (p : String) (tipo : TipoRecurso) (mes a : Nat)
    (hnone : mov.ano = none) :
    get_saldo_anterior curYear ⟨progs, si, pre ++ mov :: post⟩ p tipo mes a
      = get_saldo_anterior curYear
          ⟨progs, si, pre ++ { mov with ano := some curYear } :: post⟩ p tipo mes a
    ∧ ∀ (conta : Conta) (cy' : Nat), (∀ m ∈ conta.movimentacoes, m.ano.isSome) →
        get_saldo_anterior curYear conta p tipo mes a
          = get_saldo_anterior cy' conta p tipo mes a := by
  constructor
  · rw [get_saldo_eq_sum, get_saldo_eq_sum]
    congr 1
    show ((pre ++ mov :: post).map _).sum = ((pre ++ _ :: post).map _).sum
    simp only [List.map_append, List.map_cons, List.sum_append, List.sum_cons]
    congr 2
    have h1 : ehPassado curYear { mov with ano := some curYear } mes a
        = ehPassado curYear mov mes a := by
      simp [ehPassado, hnone]
    have h2 : Movement.delta { mov with ano := some curYear } tipo
        = mov.delta tipo := by
      cases tipo <;> rfl
    rw [h1, h2]
  · intro conta cy' hall
    rw [get_saldo_eq_sum, get_saldo_eq_sum]
    congr 1
    apply congrArg List.sum
    apply List.map_congr_left
    intro m hm
    obtain ⟨y, hy⟩ := Option.isSome_iff_exists.mp (hall m hm)
    simp [ehPassado, hy]

theorem legacy_year_default_witness :
    (mov1.ano.map (fun _ => 0)).getD 0 = 0
      ∧ ({ mov1 with ano := none } : Movement).ano = none
      ∧ get_saldo_anterior 2026
          ⟨["P1"], fun _ => none, [] ++ { mov1 with ano := none } :: []⟩
          "P1" TipoRecurso.Capital 7 2026
        = get_saldo_anterior 2026
            ⟨["P1"], fun _ => none,
              [] ++ { ({ mov1 with ano := none } : Movement) with ano := some 2026 } :: []⟩
            "P1" TipoRecurso.Capital 7 2026 :=
  ⟨rfl, rfl,
    (legacy_year_default 2026 ["P1"] (fun _ => none) [] []
      { mov1 with ano := none } "P1" TipoRecurso.Capital 7 2026 rfl).1⟩

/-- Claim C10: program deletion keeps ledger history.  Deleting a program
removes it from the program list and drops its opening-balance entry while
leaving every movement (and every other program's opening balance) in
place; re-adding the program afterwards makes the balance resolver see all
previously recorded movements again, over a freshly zeroed opening
balance. -/
theorem delete_program_keeps_history (conta : Conta) (p : String)
    (hnd : conta.programas.Nodup) :
    (delete_program conta p).movimentacoes = conta.movimentacoes
    ∧ (delete_program conta p).programas = conta.programas.erase p
    ∧ p ∉ (delete_program conta p).programas
    ∧ (delete_program conta p).saldos_iniciais p = none
    ∧ (∀ q, q ≠ p →
        (delete_program conta p).saldos_iniciais q = conta.saldos_iniciais q)
    ∧ ∀ (curYear : Nat) (tipo : TipoRecurso) (mes a : Nat),
        get_saldo_anterior curYear (add_program (delete_program conta p) p)
            p tipo mes a
          = get_saldo_anterior curYear
              { conta with
                saldos_iniciais := fun q =>
                  if q = p then some { Capital := 0, Custeio := 0 }
                  else conta.saldos_iniciais q }
              p tipo mes a := by
  have hmem : p ∉ (delete_program conta p).programas := by
    show p ∉ conta.programas.erase p
    exact hnd.not_mem_erase
  refine ⟨rfl, rfl, hmem, by simp [delete_program],
    fun q hq => by simp [delete_program, hq], ?_⟩
  intro curYear tipo mes a
  have hadd : add_program (delete_program conta p) p
      = { programas := (delete_program conta p).programas ++ [p],
          saldos_iniciais := fun q =>
            if q = p then some { Capital := 0, Custeio := 0 }
            else (delete_program conta p).saldos_iniciais q,
          movimentacoes := (delete_program conta p).movimentacoes } := by
    unfold add_program
    rw [if_neg hmem]
  rw [get_saldo_eq_sum, get_saldo_eq_sum, hadd]
  congr 1
  simp [openingOf]

theorem delete_program_keeps_history_witness :
    contaExemplo.programas.Nodup
      ∧ ((delete_program contaExemplo "P1").movimentacoes
            = contaExemplo.movimentacoes
        ∧ (delete_program contaExemplo "P1").programas
            = contaExemplo.programas.erase "P1"
        ∧ "P1" ∉ (delete_program contaExemplo "P1").programas
        ∧ (delete_program contaExemplo "P1").saldos_iniciais "P1" = none
        ∧ (∀ q, q ≠ "P1" →
            (delete_program contaExemplo "P1").saldos_iniciais q
              = contaExemplo.saldos_iniciais q)
        ∧ ∀ (curYear : Nat) (tipo : TipoRecurso) (mes a : Nat),
            get_saldo_anterior curYear
                (add_program (delete_program contaExemplo "P1") "P1")
                "P1" tipo mes a
              = get_saldo_anterior curYear
                  { contaExemplo with
                    saldos_iniciais := fun q =>
                      if q = "P1" then some { Capital := 0, Custeio := 0 }
                      else contaExemplo.saldos_iniciais q }
                  "P1" tipo mes a) :=
  ⟨by decide, delete_program_keeps_history contaExemplo "P1" (by decide)⟩

/-- `ehPassado` as the decision of the corresponding proposition. -/
theorem ehPassado_eq_decide (curYear : Nat) (m : Movement) (mes_alvo ano_alvo : Nat) :
    ehPassado curYear m mes_alvo ano_alvo
      = decide (m.ano.getD curYear < ano_alvo
          ∨ (m.ano.getD curYear = ano_alvo ∧ m.mes_num < mes_alvo)) := by
  simp [ehPassado]

/-- The movement of every statement row comes from the walked list. -/
theorem extrato_rows_fst_mem :
    ∀ (ms : List Movement) (sc su : ℚ) (r : Movement × ℚ × ℚ),
      r ∈ extrato_rows sc su ms → r.1 ∈ ms
  | [], _, _, r => by
    intro hr
    exact absurd hr (List.not_mem_nil r)
  | m :: t, sc, su, r => by
    intro hr
    simp only [extrato_rows, List.mem_cons] at hr
    rcases hr with rfl | hr
    · exact List.mem_cons_self _ _
    · exact List.mem_cons_of_mem _ (extrato_rows_fst_mem t _ _ r hr)

/-- Running balances of the statement walk: when the walked list is strictly
increasing in month, each row's running balances are the seeds plus the sum
of the deltas of the walked movements with month up to the row's month. -/
theorem extrato_rows_running :
    ∀ (ms : List Movement) (sc su : ℚ),
      ms.Pairwise (fun x y => x.mes_num < y.mes_num) →
      ∀ r ∈ extrato_rows sc su ms,
        r.2.1 = sc + (ms.map fun m =>
            if m.mes_num ≤ r.1.mes_num then m.delta TipoRecurso.Capital else 0).sum
        ∧ r.2.2 = su + (ms.map fun m =>
            if m.mes_num ≤ r.1.mes_num then m.delta TipoRecurso.Custeio else 0).sum
  | [], _, _ => by
    intro _ r hr
    exact absurd hr (List.not_mem_nil r)
  | m :: t, sc, su => by
    intro hs r hr
    rw [List.pairwise_cons] at hs
    simp only [extrato_rows, List.mem_cons] at hr
    have hz : ∀ g : TipoRecurso, ((t.map fun x =>
        if x.mes_num ≤ m.mes_num then x.delta g else 0)).sum = 0 := by
      intro g
      apply List.sum_eq_zero
      intro x hx
      obtain ⟨y, hy, rfl⟩ := List.mem_map.mp hx
      rw [if_neg (Nat.not_le.mpr (hs.1 y hy))]
    rcases hr with rfl | hr
    · constructor
      · show sc + (m.credito_capital + m.rendimento_capital - m.debito_capital)
            = sc + ((m :: t).map fun x =>
                if x.mes_num ≤ m.mes_num then x.delta TipoRecurso.Capital else 0).sum
        rw [List.map_cons, List.sum_cons, if_pos (le_refl m.mes_num), hz, add_zero]
        rfl
      · show su + (m.credito_custeio + m.rendimento_custeio - m.debito_custeio)
            = su + ((m :: t).map fun x =>
                if x.mes_num ≤ m.mes_num then x.delta TipoRecurso.Custeio else 0).sum
        rw [List.map_cons, List.sum_cons, if_pos (le_refl m.mes_num), hz, add_zero]
        rfl
    · have hmem : r.1 ∈ t := extrato_rows_fst_mem t _ _ r hr
      have ih := extrato_rows_running t
        (sc + (m.credito_capital + m.rendimento_capital - m.debito_capital))
        (su + (m.credito_custeio + m.rendimento_custeio - m.debito_custeio))
        hs.2 r hr
      have hle : m.mes_num ≤ r.1.mes_num := Nat.le_of_lt (hs.1 r.1 hmem)
      constructor
      · rw [ih.1, List.map_cons, List.sum_cons, if_pos hle]
        show sc + (m.credito_capital + m.rendimento_capital - m.debito_capital) + _
            = sc + (m.delta TipoRecurso.Capital + _)
        rw [← add_assoc]
        rfl
      · rw [ih.2, List.map_cons, List.sum_cons, if_pos hle]
        show su + (m.credito_custeio + m.rendimento_custeio - m.debito_custeio) + _
            = su + (m.delta TipoRecurso.Custeio + _)
        rw [← add_assoc]
        rfl

/-- Splitting the strictly-before-successor-period sum into the
strictly-before-January part and the months-up-to-`mes₀`-of-year-`a` part,
for valid months and `mes₀ ≤ 12`. -/
theorem sum_prefix_split (curYear : Nat) (movs : List Movement) (p : String)
    (a mes₀ : Nat) (f : Movement → ℚ)
    (hb : ∀ m ∈ movs, 1 ≤ m.mes_num ∧ m.mes_num ≤ 12) (h0 : mes₀ ≤ 12) :
    (movs.map fun m =>
        if decide (m.programa = p) && ehPassado curYear m
            (if mes₀ = 12 then 1 else mes₀ + 1) (if mes₀ = 12 then a + 1 else a)
        then f m else 0).sum
      = (movs.map fun m =>
          if decide (m.programa = p) && ehPassado curYear m 1 a then f m else 0).sum
        + (movs.map fun m =>
            if decide (m.programa = p) && decide (m.ano.getD curYear = a)
            then (if m.mes_num ≤ mes₀ then f m else 0) else 0).sum := by
  rw [← sum_map_add_split]
  apply congrArg List.sum
  apply List.map_congr_left
  intro m hmem
  obtain ⟨hm1, hm2⟩ := hb m hmem
  by_cases hprog : m.programa = p
  · simp only [ehPassado_eq_decide, Bool.and_eq_true, decide_eq_true_eq, hprog,
      eq_self_iff_true, true_and]
    split_ifs <;> first | ring1 | (exfalso; omega)
  · simp [hprog]

/-- Claim C5: running-balance equivalence.  For every account, program and
year with valid month numbers and at most one movement per period key for
that program and year, the running capital and custeio balances the report
walk holds immediately after each movement `P` equal `get_saldo_anterior`
evaluated at the period immediately following `P` (next month, or January of
the next year after December). -/
theorem extrato_equals_resolver (curYear : Nat) (conta : Conta) (p : String)
    (a : Nat)
    (hb : ∀ m ∈ conta.movimentacoes, 1 ≤ m.mes_num ∧ m.mes_num ≤ 12)
    (hu : (conta.movimentacoes.filter fun m =>
        decide (m.programa = p) && decide (m.ano.getD curYear = a)).Pairwise
        (fun x y => x.mes_num ≠ y.mes_num)) :
    ∀ r ∈ extrato curYear conta p a,
      r.2.1 = get_saldo_anterior curYear conta p TipoRecurso.Capital
          (if r.1.mes_num = 12 then 1 else r.1.mes_num + 1)
          (if r.1.mes_num = 12 then a + 1 else a)
      ∧ r.2.2 = get_saldo_anterior curYear conta p TipoRecurso.Custeio
          (if r.1.mes_num = 12 then 1 else r.1.mes_num + 1)
          (if r.1.mes_num = 12 then a + 1 else a) := by
  intro r hr
  have hperm : ((conta.movimentacoes.filter fun m =>
      decide (m.programa = p) && decide (m.ano.getD curYear = a)).mergeSort
      (fun x y => x.mes_num ≤ y.mes_num)).Perm
      (conta.movimentacoes.filter fun m =>
        decide (m.programa = p) && decide (m.ano.getD curYear = a)) :=
    List.mergeSort_perm _ _
  have hsorted : ((conta.movimentacoes.filter fun m =>
      decide (m.programa = p) && decide (m.ano.getD curYear = a)).mergeSort
      (fun x y => x.mes_num ≤ y.mes_num)).Pairwise
      (fun x y => x.mes_num ≤ y.mes_num) := by
    have := @List.sorted_mergeSort Movement
      (fun x y : Movement => decide (x.mes_num ≤ y.mes_num))
      (fun x y z hxy hyz => by
        rw [decide_eq_true_eq] at *
        omega)
      (fun x y => by
        rcases Nat.le_total x.mes_num y.mes_num with h | h <;> simp [h])
      (conta.movimentacoes.filter fun m =>
        decide (m.programa = p) && decide (m.ano.getD curYear = a))
    exact this.imp (fun h => by
      rw [decide_eq_true_eq] at h
      exact h)
  have hne : ((conta.movimentacoes.filter fun m =>
      decide (m.programa = p) && decide (m.ano.getD curYear = a)).mergeSort
      (fun x y => x.mes_num ≤ y.mes_num)).Pairwise
      (fun x y => x.mes_num ≠ y.mes_num) :=
    hu.perm hperm.symm (fun h => Ne.symm h)
  have hlt := (hsorted.and hne).imp
    (fun h => Nat.lt_of_le_of_ne h.1 h.2)
  have hrows := extrato_rows_running _ _ _ hlt r hr
  have hfl : r.1 ∈ conta.movimentacoes.filter fun m =>
      decide (m.programa = p) && decide (m.ano.getD curYear = a) :=
    hperm.mem_iff.mp (extrato_rows_fst_mem _ _ _ r hr)
  have hbounds := hb r.1 (List.mem_of_mem_filter hfl)
  constructor
  · rw [hrows.1, get_saldo_eq_sum, get_saldo_eq_sum,
      sum_prefix_split curYear conta.movimentacoes p a r.1.mes_num
        (fun m => m.delta TipoRecurso.Capital) hb hbounds.2,
      hperm.map (fun m =>
        if m.mes_num ≤ r.1.mes_num then m.delta TipoRecurso.Capital else 0)
        |>.sum_eq,
      sum_map_filter_eq_sum_ite]
    ring
  · rw [hrows.2, get_saldo_eq_sum, get_saldo_eq_sum,
      sum_prefix_split curYear conta.movimentacoes p a r.1.mes_num
        (fun m => m.delta TipoRecurso.Custeio) hb hbounds.2,
      hperm.map (fun m =>
        if m.mes_num ≤ r.1.mes_num then m.delta TipoRecurso.Custeio else 0)
        |>.sum_eq,
      sum_map_filter_eq_sum_ite]
    ring

theorem extrato_equals_resolver_witness :
    (∀ m ∈ contaExemplo.movimentacoes, 1 ≤ m.mes_num ∧ m.mes_num ≤ 12)
      ∧ ((contaExemplo.movimentacoes.filter fun m =>
          decide (m.programa = "P1") && decide (m.ano.getD 2024 = 2024)).Pairwise
          (fun x y => x.mes_num ≠ y.mes_num))
      ∧ ∀ r ∈ extrato 2024 contaExemplo "P1" 2024,
          r.2.1 = get_saldo_anterior 2024 contaExemplo "P1" TipoRecurso.Capital
              (if r.1.mes_num = 12 then 1 else r.1.mes_num + 1)
              (if r.1.mes_num = 12 then 2024 + 1 else 2024)
          ∧ r.2.2 = get_saldo_anterior 2024 contaExemplo "P1" TipoRecurso.Custeio
              (if r.1.mes_num = 12 then 1 else r.1.mes_num + 1)
              (if r.1.mes_num = 12 then 2024 + 1 else 2024) :=
  ⟨by decide, by decide,
    extrato_equals_resolver 2024 contaExemplo "P1" 2024 (by decide) (by decide)⟩

end Gestao
